import Mathlib

set_option autoImplicit false

/-!
Shallow embedding of the firecracker jailer entry module
(`src/jailer/src/lib.rs`).  Paths are modelled as lists of components,
file descriptors as natural numbers, the process fd table as an
association list from fd numbers to entries, and the libc/kernel calls
performed by `run` as an oracle structure supplying their outcomes.
The modules `env`, `cgroup` and `chroot` referenced by `lib.rs` are not
part of the sources; the parts of their behaviour that the theorems
need are modelled from the specification and marked as such.
-/

namespace Jailer

/-- A filesystem path, as its list of components ([] is the root). -/
abbrev FsPath := List String

/-- `pub const KVM_FD: i32 = 3;` from lib.rs. -/
def KVM_FD : Int := 3

/-- `pub const LISTENER_FD: i32 = 4;` from lib.rs. -/
def LISTENER_FD : Int := 4

/-- `const SOCKET_FILE_NAME: &str = "api.socket";` from lib.rs. -/
def SOCKET_FILE_NAME : String := "api.socket"

/-- Rust `Path::parent`: `none` for the root path, otherwise the path
without its last component. -/
def parentPath (p : FsPath) : Option FsPath :=
  if p = [] then none else some p.dropLast

/-- Rust `Path::join` with a single file-name component. -/
def joinPath (p : FsPath) (name : String) : FsPath := p ++ [name]

/-- The `Error` enum of lib.rs (lines 47-98).  Payloads are modelled as:
`sys_util::Error` and `io::Error` as the underlying errno (`Int`),
`PathBuf` as `FsPath`, `NulError` as the byte position of the nul,
`OsString` as the raw byte list, `&'static [u8]` as a byte list,
`validators::Error` as a numeric code. -/
inductive Error
  | Canonicalize (p : FsPath) (e : Int)
  | CgroupInheritFromParent (p : FsPath) (s : String)
  | CgroupLineNotFound (a b : String)
  | CgroupLineNotUnique (a b : String)
  | ChangeDevNetTunOwner (e : Int)
  | ChdirNewRoot (e : Int)
  | CloseNetNsFd (e : Int)
  | CloseDevNullFd (e : Int)
  | Copy (src dst : FsPath) (e : Int)
  | CreateDir (p : FsPath) (e : Int)
  | CStringParsing (nulPos : Nat)
  | Dup2 (e : Int)
  | Exec (e : Int)
  | FileCreate (p : FsPath) (e : Int)
  | FileName (p : FsPath)
  | FileOpen (p : FsPath) (e : Int)
  | FromBytesWithNul (bytes : List Nat)
  | GetOldFdFlags (e : Int)
  | Gid (s : String)
  | InvalidInstanceId (code : Nat)
  | Metadata (p : FsPath) (e : Int)
  | MissingParent (p : FsPath)
  | MkdirOldRoot (e : Int)
  | MknodDevNetTun (e : Int)
  | MountBind (e : Int)
  | MountPropagationPrivate (e : Int)
  | NotAFile (p : FsPath)
  | NotAFolder (p : FsPath)
  | NotAlphanumeric (s : String)
  | NumaNode (s : String)
  | OpenDevKvm (e : Int)
  | OpenDevNull (e : Int)
  | OsStringParsing (p : FsPath) (raw : List Nat)
  | PivotRoot (e : Int)
  | ReadLine (p : FsPath) (e : Int)
  | ReadToString (p : FsPath) (e : Int)
  | RegEx (code : Nat)
  | RmOldRootDir (e : Int)
  | SetCurrentDir (e : Int)
  | SetNetNs (e : Int)
  | SetSid (e : Int)
  | Uid (s : String)
  | UmountOldRoot (e : Int)
  | UnexpectedKvmFd (fd : Int)
  | UnexpectedListenerFd (fd : Int)
  | UnshareNewNs (e : Int)
  | UnixListener (e : Int)
  | UnsetCloexec (e : Int)
  | Write (p : FsPath) (e : Int)
deriving DecidableEq, Repr

/-! ## open_dev_kvm (lib.rs lines 194-207)

The raw `libc::open("/dev/kvm", O_RDWR)` call is the kernel's: its
return value `ret` (an fd on success, negative on failure) and the
errno are inputs to the embedded function, which performs exactly the
checks of the source. -/

/-- `open_dev_kvm` from lib.rs: fails with `OpenDevKvm` when the raw
open failed, with `UnexpectedKvmFd ret` when the returned descriptor
is not `KVM_FD`, and returns the descriptor otherwise. -/
def open_dev_kvm (ret errno : Int) : Except Error Int :=
  if ret < 0 then Except.error (Error.OpenDevKvm errno)
  else if ret ≠ KVM_FD then Except.error (Error.UnexpectedKvmFd ret)
  else Except.ok ret

/-! ## The process file-descriptor table -/

/-- What an open file descriptor refers to. -/
inductive FdObject
  | stdio (n : Nat)
  | inheritedFd (tag : Nat)
  | file (path : FsPath) (flags : Int)
  | listener (path : FsPath)
deriving DecidableEq, Repr

/-- An fd-table entry: the object and the `FD_CLOEXEC` flag. -/
structure FdEntry where
  obj : FdObject
  cloexec : Bool
deriving DecidableEq, Repr

/-- The process fd table: an association list from fd numbers to entries.
A number absent from the list is a closed descriptor. -/
abbrev FdTable := List (Nat × FdEntry)

/-- Look up the entry of descriptor `n` (first match). -/
def lookupFd (t : FdTable) (n : Nat) : Option FdEntry :=
  (t.find? (fun p => p.1 == n)).map (fun p => p.2)

/-- `close(n)`: remove every entry numbered `n`. -/
def closeFd (t : FdTable) (n : Nat) : FdTable :=
  t.filter (fun p => p.1 != n)

/-- Set the `FD_CLOEXEC` flag of descriptor `n` (the net effect of
`fcntl(n, F_SETFD, flags)` in lib.rs, where `flags` has the
`FD_CLOEXEC` bit cleared). -/
def setFdCloexec (t : FdTable) (n : Nat) (c : Bool) : FdTable :=
  t.map (fun p => if p.1 = n then (p.1, FdEntry.mk p.2.obj c) else p)

/-! ## sanitize_process (lib.rs lines 182-192) -/

/-- The integers `lo, lo+1, ..., hi-1` (empty when `hi ≤ lo`). -/
def intRange (lo hi : Int) : List Int :=
  (List.range (hi - lo).toNat).map (fun (k : Nat) => lo + (k : Int))

/-- The close loop of `sanitize_process`: `close(i)` for each listed
`i` in order.  `close` of a negative or absent descriptor is a no-op
(it merely fails with EBADF, which the source ignores). -/
def sanitizeLoop (t : FdTable) : List Int → FdTable
  | [] => t
  | i :: rest => sanitizeLoop (if 0 ≤ i then closeFd t i.toNat else t) rest

/-- `sanitize_process` from lib.rs: close every fd in
`[3, sysconf(_SC_OPEN_MAX))`.  `openMax` is the `sysconf` result. -/
def sanitize_process (openMax : Int) (t : FdTable) : FdTable :=
  sanitizeLoop t (intRange 3 openMax)

/-! ## to_cstring (lib.rs lines 255-263)

Paths enter `to_cstring` as raw byte lists (the content of an
`OsString` on Linux).  `into_string` is the standard library's UTF-8
check; `CString::new` is the standard library's interior-nul check. -/

/-- UTF-8 continuation byte: `0x80..0xBF`. -/
def utf8Cont (b : Nat) : Bool := 0x80 ≤ b && b ≤ 0xBF

/-- UTF-8 validity of a byte list (the check performed by
`OsString::into_string` on Linux). -/
def utf8Valid : List Nat → Bool
  | [] => true
  | b :: rest =>
    if b ≤ 0x7F then utf8Valid rest
    else if 0xC2 ≤ b && b ≤ 0xDF then
      match rest with
      | c1 :: r => utf8Cont c1 && utf8Valid r
      | [] => false
    else if b == 0xE0 then
      match rest with
      | c1 :: c2 :: r => (0xA0 ≤ c1 && c1 ≤ 0xBF) && utf8Cont c2 && utf8Valid r
      | _ => false
    else if (0xE1 ≤ b && b ≤ 0xEC) || b == 0xEE || b == 0xEF then
      match rest with
      | c1 :: c2 :: r => utf8Cont c1 && utf8Cont c2 && utf8Valid r
      | _ => false
    else if b == 0xED then
      match rest with
      | c1 :: c2 :: r => (0x80 ≤ c1 && c1 ≤ 0x9F) && utf8Cont c2 && utf8Valid r
      | _ => false
    else if b == 0xF0 then
      match rest with
      | c1 :: c2 :: c3 :: r =>
        (0x90 ≤ c1 && c1 ≤ 0xBF) && utf8Cont c2 && utf8Cont c3 && utf8Valid r
      | _ => false
    else if 0xF1 ≤ b && b ≤ 0xF3 then
      match rest with
      | c1 :: c2 :: c3 :: r =>
        utf8Cont c1 && utf8Cont c2 && utf8Cont c3 && utf8Valid r
      | _ => false
    else if b == 0xF4 then
      match rest with
      | c1 :: c2 :: c3 :: r =>
        (0x80 ≤ c1 && c1 ≤ 0x8F) && utf8Cont c2 && utf8Cont c3 && utf8Valid r
      | _ => false
    else false

/-- `OsString::into_string`: the byte content when it is valid UTF-8,
otherwise the original `OsString` back as the error payload. -/
def intoString (bytes : List Nat) : Except (List Nat) (List Nat) :=
  if utf8Valid bytes then Except.ok bytes else Except.error bytes

/-- `CString::new`: fails with the position of the first nul byte when
the input contains one, otherwise returns the bytes unchanged. -/
def cstringNew (bytes : List Nat) : Except Nat (List Nat) :=
  if bytes.contains 0 then Except.error (bytes.indexOf 0) else Except.ok bytes

/-- `to_cstring` from lib.rs: `into_string` (mapping its failure to
`OsStringParsing` with the path attached) then `CString::new` (mapping
its failure to `CStringParsing`).  The path argument and its byte
content are the same value in this byte-level model. -/
def to_cstring (path : FsPath) (bytes : List Nat) : Except Error (List Nat) :=
  match intoString bytes with
  | Except.error e => Except.error (Error.OsStringParsing path e)
  | Except.ok s =>
    match cstringNew s with
    | Except.error n => Except.error (Error.CStringParsing n)
    | Except.ok c => Except.ok c

/-! ## The serialized target context (lib.rs lines 37-45)

`FirecrackerContext` derives serde `Serialize`/`Deserialize` with
`#[serde(deny_unknown_fields)]`.  The derive output is generated code,
not part of the sources, so the field-named encoding is modelled from
the spec: records are lists of (field name, value) pairs. -/

/-- A value in the field-named encoding. -/
inductive JsonValue
  | str (s : String)
  | jbool (b : Bool)
  | num (n : Nat)
deriving DecidableEq, Repr

/-- A serialized record: field names with their values, in order. -/
abbrev JsonRecord := List (String × JsonValue)

/-- Deserialization failures of the serde-derived visitor. -/
inductive DeError
  | unknownField (name : String)
  | duplicateField (name : String)
  | invalidType (name : String)
  | missingField (name : String)
deriving DecidableEq, Repr

/-- `FirecrackerContext` from lib.rs.  `u32`/`u64` fields are naturals;
the deserializer enforces the bounds. -/
structure FirecrackerContext where
  id : String
  jailed : Bool
  seccomp_level : Nat
  start_time_us : Nat
  start_time_cpu_us : Nat
deriving DecidableEq, Repr

def U32_BOUND : Nat := 2 ^ 32

def U64_BOUND : Nat := 2 ^ 64

/-- Modelled from the spec: the serde `Serialize` derive for
`FirecrackerContext` (generated code, not in the sources) emits the
five fields by name, in declaration order. -/
def serializeContext (c : FirecrackerContext) : JsonRecord :=
  [("id", JsonValue.str c.id),
   ("jailed", JsonValue.jbool c.jailed),
   ("seccomp_level", JsonValue.num c.seccomp_level),
   ("start_time_us", JsonValue.num c.start_time_us),
   ("start_time_cpu_us", JsonValue.num c.start_time_cpu_us)]

/-- The five recognized field names, in declaration order. -/
def contextFieldNames : List String :=
  ["id", "jailed", "seccomp_level", "start_time_us", "start_time_cpu_us"]

/-- The deserializer's in-progress state: each field seen so far. -/
structure PartialContext where
  id : Option String
  jailed : Option Bool
  seccomp_level : Option Nat
  start_time_us : Option Nat
  start_time_cpu_us : Option Nat
deriving DecidableEq, Repr

def PartialContext.empty : PartialContext := ⟨none, none, none, none, none⟩

/-- Modelled from the spec: one step of the serde-derived map visitor
(generated code, not in the sources).  A known field is recorded once
(a repeat is a duplicate-field error, a wrong value shape or an
out-of-range integer an invalid-type error); any other field name is
an unknown-field error, per `deny_unknown_fields`. -/
def deStep (p : PartialContext) (kv : String × JsonValue) :
    Except DeError PartialContext :=
  if kv.1 = "id" then
    match p.id, kv.2 with
    | some _, _ => Except.error (DeError.duplicateField "id")
    | none, JsonValue.str s => Except.ok { p with id := some s }
    | none, _ => Except.error (DeError.invalidType "id")
  else if kv.1 = "jailed" then
    match p.jailed, kv.2 with
    | some _, _ => Except.error (DeError.duplicateField "jailed")
    | none, JsonValue.jbool b => Except.ok { p with jailed := some b }
    | none, _ => Except.error (DeError.invalidType "jailed")
  else if kv.1 = "seccomp_level" then
    match p.seccomp_level, kv.2 with
    | some _, _ => Except.error (DeError.duplicateField "seccomp_level")
    | none, JsonValue.num n =>
      if n < U32_BOUND then Except.ok { p with seccomp_level := some n }
      else Except.error (DeError.invalidType "seccomp_level")
    | none, _ => Except.error (DeError.invalidType "seccomp_level")
  else if kv.1 = "start_time_us" then
    match p.start_time_us, kv.2 with
    | some _, _ => Except.error (DeError.duplicateField "start_time_us")
    | none, JsonValue.num n =>
      if n < U64_BOUND then Except.ok { p with start_time_us := some n }
      else Except.error (DeError.invalidType "start_time_us")
    | none, _ => Except.error (DeError.invalidType "start_time_us")
  else if kv.1 = "start_time_cpu_us" then
    match p.start_time_cpu_us, kv.2 with
    | some _, _ => Except.error (DeError.duplicateField "start_time_cpu_us")
    | none, JsonValue.num n =>
      if n < U64_BOUND then Except.ok { p with start_time_cpu_us := some n }
      else Except.error (DeError.invalidType "start_time_cpu_us")
    | none, _ => Except.error (DeError.invalidType "start_time_cpu_us")
  else Except.error (DeError.unknownField kv.1)

/-- Fold the visitor over the record's fields. -/
def deFields : PartialContext → JsonRecord → Except DeError PartialContext
  | p, [] => Except.ok p
  | p, kv :: rest =>
    match deStep p kv with
    | Except.error e => Except.error e
    | Except.ok q => deFields q rest

/-- End of the map: every field must have been seen. -/
def finalizeContext (p : PartialContext) : Except DeError FirecrackerContext :=
  match p.id with
  | none => Except.error (DeError.missingField "id")
  | some i =>
    match p.jailed with
    | none => Except.error (DeError.missingField "jailed")
    | some j =>
      match p.seccomp_level with
      | none => Except.error (DeError.missingField "seccomp_level")
      | some sl =>
        match p.start_time_us with
        | none => Except.error (DeError.missingField "start_time_us")
        | some su =>
          match p.start_time_cpu_us with
          | none => Except.error (DeError.missingField "start_time_cpu_us")
          | some scu => Except.ok ⟨i, j, sl, su, scu⟩

/-- Modelled from the spec: the serde `Deserialize` derive for
`FirecrackerContext` with `deny_unknown_fields` (generated code, not
in the sources): visit the fields in order, then require all five. -/
def deserializeContext (r : JsonRecord) : Except DeError FirecrackerContext :=
  match deFields PartialContext.empty r with
  | Except.error e => Except.error e
  | Except.ok p => finalizeContext p

/-- How many entries of a record carry the given field name. -/
def fieldCount (r : JsonRecord) (name : String) : Nat :=
  (r.filter (fun kv => kv.1 == name)).length

/-- 1 when the optional field has been seen, 0 otherwise. -/
def countOpt {α : Type} (o : Option α) : Nat :=
  match o with
  | none => 0
  | some _ => 1

/-! ## Derived paths

`Env::new` (module `env`, not in the sources) derives the jail
directory; `run` (lib.rs line 226) derives the socket path from it. -/

/-- Modelled from the spec: `chroot_dir = chroot_base / exec_file_name
/ id / "root"`, as derived by `Env::new` in the missing `env` module. -/
def envChrootDir (chrootBase : FsPath) (execFileName idStr : String) : FsPath :=
  chrootBase ++ [execFileName, idStr, "root"]

/-- The socket path expression of `run` (lib.rs line 226):
`chroot_dir.parent().unwrap().join(SOCKET_FILE_NAME)`, with the
`unwrap` made explicit as an `Option`. -/
def runSocketPath (chrootDir : FsPath) : Option FsPath :=
  (parentPath chrootDir).map (fun par => joinPath par SOCKET_FILE_NAME)

/-! ## The run state machine (lib.rs lines 209-250)

`run` is embedded as a function of the parsed configuration, an oracle
supplying the outcome of every kernel call, and the initial fd table.
Descriptor allocation is nondeterministic through the oracle: the
kernel's lowest-free-fd rule is one of the admitted behaviours, and
the model goes `stuck` when the oracle names a descriptor that is not
actually free (no real kernel does that).  The body of `Env::run`
(module `env`, not in the sources) is modelled from the spec, §4.E. -/

/-- `O_RDWR`. -/
def O_RDWR : Int := 2

/-- `O_RDONLY`. -/
def O_RDONLY : Int := 0

def devKvmPath : FsPath := ["dev", "kvm"]

def devNullPath : FsPath := ["dev", "null"]

/-- The entry created by `open_dev_kvm`: a raw `libc::open` leaves
`FD_CLOEXEC` clear. -/
def kvmEntry : FdEntry := FdEntry.mk (FdObject.file devKvmPath O_RDWR) false

/-- The observable operations of a run, in program order. -/
inductive Event
  | closeInheritedFds (lo hi : Int)
  | openKvm
  | createDirAll (p : FsPath)
  | bindSocket (p : FsPath)
  | fcntlGetFd (fd : Nat)
  | fcntlSetFd (fd : Nat)
  | cgroupSetup
  | cgroupAttachSelf
  | openNetNs (p : FsPath)
  | setNetNs
  | closeNetNs
  | unshareNewNs
  | copyExecToJail
  | mkdirDevNet
  | mknodDevNetTun
  | chownDevNetTun
  | mountPropagationPrivate
  | mountBindSelf
  | chdirNewRoot
  | mkdirOldRoot
  | pivotRoot
  | umountOldRoot
  | rmOldRoot
  | setGid (g : Nat)
  | setUid (u : Nat)
  | setSid
  | openDevNull
  | dup2Ev (a b : Nat)
  | closeDevNull
  | execTarget
deriving DecidableEq, Repr

/-- The mount, chdir, pivot_root and umount operations of the
ChrootBuilder. -/
def isChrootFsOp : Event → Bool
  | Event.mountPropagationPrivate => true
  | Event.mountBindSelf => true
  | Event.chdirNewRoot => true
  | Event.pivotRoot => true
  | Event.umountOldRoot => true
  | _ => false

/-- The socket-bind operation. -/
def isBindEvent : Event → Bool
  | Event.bindSocket _ => true
  | _ => false

/-- Operations that open a file descriptor (the cgroup phase opens and
closes attribute files transiently). -/
def isOpenEvent : Event → Bool
  | Event.openKvm => true
  | Event.bindSocket _ => true
  | Event.openNetNs _ => true
  | Event.openDevNull => true
  | Event.cgroupSetup => true
  | Event.cgroupAttachSelf => true
  | _ => false

/-- The validated configuration handed to `run` (clap matches plus the
spec's context attributes, §3). -/
structure Config where
  id : String
  execFileName : String
  chrootBase : FsPath
  netns : Option FsPath
  daemonize : Bool
  uid : Nat
  gid : Nat
  seccompLevel : Nat
  numaNode : Nat
deriving DecidableEq, Repr

/-- Outcomes of every kernel and library call `run` performs, fixed in
advance.  `none` in an error slot means that call succeeds. -/
structure Oracle where
  openMax : Int
  kvmRet : Int
  kvmErrno : Int
  envNewErr : Option Error
  createDirErr : Option Int
  bindResult : Except Int Nat
  fcntlGetFail : Bool
  fcntlGetErrno : Int
  fcntlSetFail : Bool
  fcntlSetErrno : Int
  cgroupErr : Option Error
  netnsFd : Nat
  netnsErr : Option Error
  unshareErr : Option Int
  chrootErr : Option Error
  setGidErr : Option Error
  setUidErr : Option Error
  daemonErr : Option Error
  devNullFd : Nat
  execErr : Option Int
deriving Repr

/-- The result of a run: `ok` is the state just before a successful
`exec` (the point of no return), `err` an error returned to the
caller with the operations performed so far, `panicked` a Rust panic,
and `stuck` an oracle that contradicts kernel fd semantics. -/
inductive Outcome
  | stuck
  | panicked
  | err (e : Error) (tr : List Event)
  | ok (t : FdTable) (tr : List Event)
deriving DecidableEq, Repr

/-- `dup2(a, b)`: duplicate `a` onto `b` (closing `b` first), with the
`FD_CLOEXEC` flag of the copy clear; `none` when `a` is not open. -/
def dup2 (t : FdTable) (a b : Nat) : Option FdTable :=
  match lookupFd t a with
  | none => none
  | some e => some (if a = b then t else (b, FdEntry.mk e.obj false) :: closeFd t b)

/-- The filesystem steps of the ChrootBuilder, in the order of the
spec §4.C (the directory itself was created by `run` already). -/
def chrootEvents : List Event :=
  [Event.copyExecToJail, Event.mkdirDevNet, Event.mknodDevNetTun,
   Event.chownDevNetTun, Event.mountPropagationPrivate, Event.mountBindSelf,
   Event.chdirNewRoot, Event.mkdirOldRoot, Event.pivotRoot,
   Event.umountOldRoot, Event.rmOldRoot]

/-- The exec step closing `Env::run`: on success the process image is
replaced, so `ok` carries the fd table at that instant. -/
def execStep (o : Oracle) (t : FdTable) (tr : List Event) : Outcome :=
  match o.execErr with
  | some e => Outcome.err (Error.Exec e) (tr ++ [Event.execTarget])
  | none => Outcome.ok t (tr ++ [Event.execTarget])

/-- Modelled from the spec: the tail of `Env::run` (module `env`, not
in the sources) after the optional netns join, per §4.E: unshare the
mount namespace, build and pivot into the chroot, drop gid then uid,
optionally daemonize (setsid, open `/dev/null`, dup2 onto the standard
streams, close the original), then exec. -/
def envRunTail (cfg : Config) (o : Oracle) (t : FdTable) (tr : List Event) :
    Outcome :=
  match o.unshareErr with
  | some e => Outcome.err (Error.UnshareNewNs e) (tr ++ [Event.unshareNewNs])
  | none =>
    match o.chrootErr with
    | some e => Outcome.err e (tr ++ [Event.unshareNewNs] ++ chrootEvents)
    | none =>
      match o.setGidErr with
      | some e => Outcome.err e
          (tr ++ [Event.unshareNewNs] ++ chrootEvents ++ [Event.setGid cfg.gid])
      | none =>
        match o.setUidErr with
        | some e => Outcome.err e
            (tr ++ [Event.unshareNewNs] ++ chrootEvents ++
              [Event.setGid cfg.gid, Event.setUid cfg.uid])
        | none =>
          if cfg.daemonize then
            if lookupFd t o.devNullFd = none then
              match o.daemonErr with
              | some e => Outcome.err e
                  (tr ++ [Event.unshareNewNs] ++ chrootEvents ++
                    [Event.setGid cfg.gid, Event.setUid cfg.uid, Event.setSid,
                     Event.openDevNull, Event.dup2Ev o.devNullFd 0,
                     Event.dup2Ev o.devNullFd 1, Event.dup2Ev o.devNullFd 2,
                     Event.closeDevNull])
              | none =>
                match dup2 ((o.devNullFd,
                    FdEntry.mk (FdObject.file devNullPath O_RDWR) false) :: t)
                    o.devNullFd 0 with
                | none => Outcome.stuck
                | some ta =>
                  match dup2 ta o.devNullFd 1 with
                  | none => Outcome.stuck
                  | some tb =>
                    match dup2 tb o.devNullFd 2 with
                    | none => Outcome.stuck
                    | some tc => execStep o (closeFd tc o.devNullFd)
                        (tr ++ [Event.unshareNewNs] ++ chrootEvents ++
                          [Event.setGid cfg.gid, Event.setUid cfg.uid,
                           Event.setSid, Event.openDevNull,
                           Event.dup2Ev o.devNullFd 0, Event.dup2Ev o.devNullFd 1,
                           Event.dup2Ev o.devNullFd 2, Event.closeDevNull])
            else Outcome.stuck
          else execStep o t
            (tr ++ [Event.unshareNewNs] ++ chrootEvents ++
              [Event.setGid cfg.gid, Event.setUid cfg.uid])

/-- Modelled from the spec: `Env::run` (module `env`, not in the
sources), per §4.E: cgroup creation and self-attach, then the optional
network-namespace join (open the handle read-only, `setns`, close the
handle), then the tail. -/
def envRun (cfg : Config) (o : Oracle) (t : FdTable) (tr : List Event) :
    Outcome :=
  match o.cgroupErr with
  | some e => Outcome.err e (tr ++ [Event.cgroupSetup, Event.cgroupAttachSelf])
  | none =>
    match cfg.netns with
    | some nsPath =>
      if lookupFd t o.netnsFd = none then
        match o.netnsErr with
        | some e => Outcome.err e
            (tr ++ [Event.cgroupSetup, Event.cgroupAttachSelf,
              Event.openNetNs nsPath, Event.setNetNs, Event.closeNetNs])
        | none =>
          envRunTail cfg o
            (closeFd ((o.netnsFd,
              FdEntry.mk (FdObject.file nsPath O_RDONLY) false) :: t)
              o.netnsFd)
            (tr ++ [Event.cgroupSetup, Event.cgroupAttachSelf,
              Event.openNetNs nsPath, Event.setNetNs, Event.closeNetNs])
      else Outcome.stuck
    | none =>
      envRunTail cfg o t (tr ++ [Event.cgroupSetup, Event.cgroupAttachSelf])

/-- `run` from lib.rs (lines 209-250): sanitize inherited fds, open
`/dev/kvm` and check its slot, construct the `Env`, create the jail
directory, bind the API socket at the parent of `chroot_dir` and check
its slot, clear its `FD_CLOEXEC` flag, then hand over to `Env::run`. -/
def run (cfg : Config) (o : Oracle) (t0 : FdTable) : Outcome :=
  match open_dev_kvm o.kvmRet o.kvmErrno with
  | Except.error e => Outcome.err e [Event.closeInheritedFds 3 o.openMax]
  | Except.ok ret =>
    if lookupFd (sanitize_process o.openMax t0) ret.toNat = none then
      match o.envNewErr with
      | some e => Outcome.err e
          [Event.closeInheritedFds 3 o.openMax, Event.openKvm]
      | none =>
        match o.createDirErr with
        | some ioe => Outcome.err
            (Error.CreateDir
              (envChrootDir cfg.chrootBase cfg.execFileName cfg.id) ioe)
            [Event.closeInheritedFds 3 o.openMax, Event.openKvm,
             Event.createDirAll
               (envChrootDir cfg.chrootBase cfg.execFileName cfg.id)]
        | none =>
          match runSocketPath
              (envChrootDir cfg.chrootBase cfg.execFileName cfg.id) with
          | none => Outcome.panicked
          | some sockPath =>
            match o.bindResult with
            | Except.error ioe =>
              Outcome.err (Error.UnixListener ioe)
                [Event.closeInheritedFds 3 o.openMax, Event.openKvm,
                 Event.createDirAll
                   (envChrootDir cfg.chrootBase cfg.execFileName cfg.id),
                 Event.bindSocket sockPath]
            | Except.ok lfd =>
              if lookupFd
                  ((ret.toNat, kvmEntry) :: sanitize_process o.openMax t0)
                  lfd = none then
                if (lfd : Int) ≠ LISTENER_FD then
                  Outcome.err (Error.UnexpectedListenerFd lfd)
                    [Event.closeInheritedFds 3 o.openMax, Event.openKvm,
                     Event.createDirAll
                       (envChrootDir cfg.chrootBase cfg.execFileName cfg.id),
                     Event.bindSocket sockPath]
                else if o.fcntlGetFail then
                  Outcome.err (Error.GetOldFdFlags o.fcntlGetErrno)
                    [Event.closeInheritedFds 3 o.openMax, Event.openKvm,
                     Event.createDirAll
                       (envChrootDir cfg.chrootBase cfg.execFileName cfg.id),
                     Event.bindSocket sockPath, Event.fcntlGetFd lfd]
                else if o.fcntlSetFail then
                  Outcome.err (Error.UnsetCloexec o.fcntlSetErrno)
                    [Event.closeInheritedFds 3 o.openMax, Event.openKvm,
                     Event.createDirAll
                       (envChrootDir cfg.chrootBase cfg.execFileName cfg.id),
                     Event.bindSocket sockPath, Event.fcntlGetFd lfd,
                     Event.fcntlSetFd lfd]
                else
                  envRun cfg o
                    (setFdCloexec
                      ((lfd, FdEntry.mk (FdObject.listener sockPath) true) ::
                        (ret.toNat, kvmEntry) ::
                          sanitize_process o.openMax t0)
                      lfd false)
                    [Event.closeInheritedFds 3 o.openMax, Event.openKvm,
                     Event.createDirAll
                       (envChrootDir cfg.chrootBase cfg.execFileName cfg.id),
                     Event.bindSocket sockPath, Event.fcntlGetFd lfd,
                     Event.fcntlSetFd lfd]
              else Outcome.stuck
    else Outcome.stuck

/-! ## Concrete scenario

A kernel-faithful happy-path run (every descriptor the oracle hands
out is the lowest free one, as the kernel would): standard streams
open, `sysconf(_SC_OPEN_MAX) = 16`, `/dev/kvm` lands on fd 3, the
listener on fd 4, no netns, no daemonize, every call succeeds. -/

def happyConfig : Config :=
  ⟨"vm1", "firecracker", ["srv", "jailer"], none, false, 123, 456, 0, 0⟩

def happyOracle : Oracle :=
  ⟨16, 3, 0, none, none, Except.ok 4, false, 0, false, 0, none, 5, none,
   none, none, none, none, none, 5, none⟩

def stdioTable : FdTable :=
  [(0, FdEntry.mk (FdObject.stdio 0) false),
   (1, FdEntry.mk (FdObject.stdio 1) false),
   (2, FdEntry.mk (FdObject.stdio 2) false)]

def happyFinalTable : FdTable :=
  [(4, FdEntry.mk (FdObject.listener
      ["srv", "jailer", "firecracker", "vm1", "api.socket"]) false),
   (3, FdEntry.mk (FdObject.file ["dev", "kvm"] 2) false),
   (0, FdEntry.mk (FdObject.stdio 0) false),
   (1, FdEntry.mk (FdObject.stdio 1) false),
   (2, FdEntry.mk (FdObject.stdio 2) false)]

def happyTrace : List Event :=
  [Event.closeInheritedFds 3 16, Event.openKvm,
   Event.createDirAll ["srv", "jailer", "firecracker", "vm1", "root"],
   Event.bindSocket ["srv", "jailer", "firecracker", "vm1", "api.socket"],
   Event.fcntlGetFd 4, Event.fcntlSetFd 4, Event.cgroupSetup,
   Event.cgroupAttachSelf, Event.unshareNewNs, Event.copyExecToJail,
   Event.mkdirDevNet, Event.mknodDevNetTun, Event.chownDevNetTun,
   Event.mountPropagationPrivate, Event.mountBindSelf, Event.chdirNewRoot,
   Event.mkdirOldRoot, Event.pivotRoot, Event.umountOldRoot, Event.rmOldRoot,
   Event.setGid 456, Event.setUid 123, Event.execTarget]

/-- The claim under scrutiny, as stated: in every successful execution
the socket bind happens after every mount, chdir and pivot_root
operation of the ChrootBuilder. -/
def bindAfterChrootClaim : Prop :=
  ∀ (cfg : Config) (o : Oracle) (t0 : FdTable) (tbl : FdTable)
    (tr : List Event), run cfg o t0 = Outcome.ok tbl tr →
    ∀ (i j : Nat) (hi : i < tr.length) (hj : j < tr.length),
      isBindEvent (tr.get ⟨i, hi⟩) = true →
      isChrootFsOp (tr.get ⟨j, hj⟩) = true → j < i

/-- An oracle for the descriptor-mismatch scenario: `_SC_OPEN_MAX` is
4, an inherited descriptor sits at fd 4 (below the limit), so after
sanitization (which closes only fd 3) the freshly bound listener lands
on fd 5, kernel-faithfully the lowest free slot. -/
def mismatchOracle : Oracle :=
  ⟨4, 3, 0, none, none, Except.ok 5, false, 0, false, 0, none, 6, none,
   none, none, none, none, none, 6, none⟩

def mismatchTable : FdTable :=
  [(0, FdEntry.mk (FdObject.stdio 0) false),
   (1, FdEntry.mk (FdObject.stdio 1) false),
   (2, FdEntry.mk (FdObject.stdio 2) false),
   (4, FdEntry.mk (FdObject.inheritedFd 0) false)]

/-! ## Lemmas about the fd table -/

theorem lookupFd_cons (k : Nat) (e : FdEntry) (t : FdTable) (n : Nat) :
    lookupFd ((k, e) :: t) n = if k = n then some e else lookupFd t n := by
  by_cases h : k = n <;> simp [lookupFd, List.find?_cons, h]

theorem closeFd_cons (pk : Nat) (pe : FdEntry) (t : FdTable) (k : Nat) :
    closeFd ((pk, pe) :: t) k =
      if pk = k then closeFd t k else (pk, pe) :: closeFd t k := by
  by_cases h : pk = k <;> simp [closeFd, List.filter_cons, h]

theorem lookupFd_closeFd (t : FdTable) (k n : Nat) :
    lookupFd (closeFd t k) n = if n = k then none else lookupFd t n := by
  induction t with
  | nil => simp [closeFd, lookupFd]
  | cons p t ih =>
    obtain ⟨pk, pe⟩ := p
    rw [closeFd_cons]
    by_cases hpk : pk = k
    · rw [if_pos hpk, ih, lookupFd_cons]
      by_cases hn : n = k
      · simp [hn]
      · rw [if_neg hn, if_neg hn, if_neg (by omega : ¬ pk = n)]
    · rw [if_neg hpk, lookupFd_cons, lookupFd_cons, ih]
      by_cases hn : pk = n
      · rw [if_pos hn, if_neg (by omega : ¬ n = k), if_pos hn]
      · rw [if_neg hn, if_neg hn]

theorem setFdCloexec_cons (pk : Nat) (pe : FdEntry) (t : FdTable) (k : Nat)
    (c : Bool) :
    setFdCloexec ((pk, pe) :: t) k c =
      (if pk = k then (pk, FdEntry.mk pe.obj c) else (pk, pe)) ::
        setFdCloexec t k c := by
  by_cases h : pk = k <;> simp [setFdCloexec, h]

theorem lookupFd_setFdCloexec (t : FdTable) (k : Nat) (c : Bool) (n : Nat) :
    lookupFd (setFdCloexec t k c) n =
      if k = n then (lookupFd t n).map (fun e => FdEntry.mk e.obj c)
      else lookupFd t n := by
  induction t with
  | nil => by_cases h : k = n <;> simp [setFdCloexec, lookupFd, h]
  | cons p t ih =>
    obtain ⟨pk, pe⟩ := p
    rw [setFdCloexec_cons]
    by_cases hpk : pk = k
    · rw [if_pos hpk, lookupFd_cons, lookupFd_cons, ih]
      by_cases hn : pk = n
      · rw [if_pos hn, if_pos hn, if_pos (by omega : k = n)]
        simp
      · rw [if_neg hn, if_neg hn]
    · rw [if_neg hpk, lookupFd_cons, lookupFd_cons, ih]
      by_cases hn : pk = n
      · rw [if_pos hn, if_pos hn, if_neg (by omega : ¬ k = n)]
      · rw [if_neg hn, if_neg hn]

theorem lookupFd_none_of_keys_lt (t : FdTable) (M : Int) (n : Nat)
    (hk : ∀ p ∈ t, (p.1 : Int) < M) (hn : M ≤ (n : Int)) :
    lookupFd t n = none := by
  induction t with
  | nil => rfl
  | cons p t ih =>
    obtain ⟨pk, pe⟩ := p
    have h1 : (pk : Int) < M := hk (pk, pe) (List.mem_cons_self _ _)
    have h2 : pk ≠ n := by omega
    rw [lookupFd_cons, if_neg h2]
    exact ih (fun q hq => hk q (List.mem_cons_of_mem _ hq))

theorem mem_intRange (lo hi m : Int) :
    m ∈ intRange lo hi ↔ lo ≤ m ∧ m < hi := by
  simp only [intRange, List.mem_map, List.mem_range]
  constructor
  · rintro ⟨k, hk, rfl⟩; omega
  · rintro ⟨h1, h2⟩
    refine ⟨(m - lo).toNat, by omega, by omega⟩

theorem lookupFd_sanitizeLoop (l : List Int) (t : FdTable) (n : Nat) :
    lookupFd (sanitizeLoop t l) n =
      if (n : Int) ∈ l then none else lookupFd t n := by
  induction l generalizing t with
  | nil => simp [sanitizeLoop]
  | cons i rest ih =>
    rw [sanitizeLoop, ih]
    by_cases hmem : (n : Int) ∈ rest
    · simp [hmem]
    · by_cases hni : (n : Int) = i
      · have h0 : (0 : Int) ≤ i := by omega
        have ht : i.toNat = n := by omega
        simp [hmem, hni, h0, ht, lookupFd_closeFd]
      · by_cases h0 : (0 : Int) ≤ i
        · have ht : n ≠ i.toNat := by omega
          simp [hmem, hni, h0, ht, lookupFd_closeFd]
        · simp [hmem, hni, h0]

theorem lookupFd_sanitize (M : Int) (t : FdTable) (n : Nat) :
    lookupFd (sanitize_process M t) n =
      if 3 ≤ (n : Int) ∧ (n : Int) < M then none else lookupFd t n := by
  rw [sanitize_process, lookupFd_sanitizeLoop]
  by_cases h : 3 ≤ (n : Int) ∧ (n : Int) < M <;>
    simp [mem_intRange, h]

theorem lookupFd_dup2 (t t2 : FdTable) (a b n : Nat)
    (h : dup2 t a b = some t2) (hn : n ≠ b) :
    lookupFd t2 n = lookupFd t n := by
  unfold dup2 at h
  cases hl : lookupFd t a with
  | none => rw [hl] at h; exact Option.noConfusion h
  | some e =>
    rw [hl] at h
    injection h with h
    subst h
    by_cases hab : a = b
    · simp [hab]
    · rw [if_neg hab, lookupFd_cons, if_neg (Ne.symm hn), lookupFd_closeFd,
        if_neg hn]

/-! ## Inversion of the environment phase -/

theorem execStep_ok (o : Oracle) (t : FdTable) (tr : List Event)
    (tbl : FdTable) (tr2 : List Event)
    (h : execStep o t tr = Outcome.ok tbl tr2) :
    tbl = t ∧ tr2 = tr ++ [Event.execTarget] := by
  unfold execStep at h
  cases he : o.execErr with
  | some e => rw [he] at h; exact Outcome.noConfusion h
  | none =>
    rw [he] at h
    injection h with h1 h2
    exact ⟨h1.symm, h2.symm⟩

theorem envRunTail_ok (cfg : Config) (o : Oracle) (t : FdTable)
    (tr : List Event) (tbl : FdTable) (tr2 : List Event)
    (h : envRunTail cfg o t tr = Outcome.ok tbl tr2) :
    (∀ n, 3 ≤ n → lookupFd tbl n = lookupFd t n) ∧
    ∃ suf, tr2 = tr ++ suf ∧
      ∀ e ∈ suf, isBindEvent e = false ∧ e ≠ Event.openKvm := by
  unfold envRunTail at h
  cases h1 : o.unshareErr with
  | some e => rw [h1] at h; exact Outcome.noConfusion h
  | none =>
  simp only [h1] at h
  cases h2 : o.chrootErr with
  | some e => rw [h2] at h; exact Outcome.noConfusion h
  | none =>
  simp only [h2] at h
  cases h3 : o.setGidErr with
  | some e => rw [h3] at h; exact Outcome.noConfusion h
  | none =>
  simp only [h3] at h
  cases h4 : o.setUidErr with
  | some e => rw [h4] at h; exact Outcome.noConfusion h
  | none =>
  simp only [h4] at h
  by_cases hd : cfg.daemonize = true
  · rw [if_pos hd] at h
    by_cases hfree : lookupFd t o.devNullFd = none
    · rw [if_pos hfree] at h
      cases h5 : o.daemonErr with
      | some e => rw [h5] at h; exact Outcome.noConfusion h
      | none =>
      simp only [h5] at h
      cases hda : dup2 ((o.devNullFd,
          FdEntry.mk (FdObject.file devNullPath O_RDWR) false) :: t)
          o.devNullFd 0 with
      | none => rw [hda] at h; exact Outcome.noConfusion h
      | some ta =>
      simp only [hda] at h
      cases hdb : dup2 ta o.devNullFd 1 with
      | none => rw [hdb] at h; exact Outcome.noConfusion h
      | some tb =>
      simp only [hdb] at h
      cases hdc : dup2 tb o.devNullFd 2 with
      | none => rw [hdc] at h; exact Outcome.noConfusion h
      | some tc =>
      simp only [hdc] at h
      obtain ⟨htbl, htr⟩ := execStep_ok _ _ _ _ _ h
      constructor
      · intro n hn
        subst htbl
        rw [lookupFd_closeFd]
        by_cases hdv : n = o.devNullFd
        · rw [if_pos hdv, hdv, hfree]
        · rw [if_neg hdv,
            lookupFd_dup2 _ _ _ _ _ hdc (by omega : n ≠ 2),
            lookupFd_dup2 _ _ _ _ _ hdb (by omega : n ≠ 1),
            lookupFd_dup2 _ _ _ _ _ hda (by omega : n ≠ 0),
            lookupFd_cons, if_neg (fun hh => hdv hh.symm)]
      · refine ⟨[Event.unshareNewNs] ++ chrootEvents ++
          [Event.setGid cfg.gid, Event.setUid cfg.uid, Event.setSid,
           Event.openDevNull, Event.dup2Ev o.devNullFd 0,
           Event.dup2Ev o.devNullFd 1, Event.dup2Ev o.devNullFd 2,
           Event.closeDevNull, Event.execTarget], ?_, ?_⟩
        · rw [htr]; simp [chrootEvents]
        · intro e he
          fin_cases he <;> exact ⟨rfl, by simp⟩
    · rw [if_neg hfree] at h; exact Outcome.noConfusion h
  · rw [if_neg hd] at h
    obtain ⟨htbl, htr⟩ := execStep_ok _ _ _ _ _ h
    constructor
    · intro n _; rw [htbl]
    · refine ⟨[Event.unshareNewNs] ++ chrootEvents ++
        [Event.setGid cfg.gid, Event.setUid cfg.uid, Event.execTarget],
        ?_, ?_⟩
      · rw [htr]; simp [chrootEvents]
      · intro e he
        fin_cases he <;> exact ⟨rfl, by simp⟩

theorem envRun_ok (cfg : Config) (o : Oracle) (t : FdTable)
    (tr : List Event) (tbl : FdTable) (tr2 : List Event)
    (h : envRun cfg o t tr = Outcome.ok tbl tr2) :
    (∀ n, 3 ≤ n → lookupFd tbl n = lookupFd t n) ∧
    ∃ suf, tr2 = tr ++ suf ∧
      ∀ e ∈ suf, isBindEvent e = false ∧ e ≠ Event.openKvm := by
  unfold envRun at h
  cases h1 : o.cgroupErr with
  | some e => rw [h1] at h; exact Outcome.noConfusion h
  | none =>
  simp only [h1] at h
  cases hns : cfg.netns with
  | none =>
    simp only [hns] at h
    obtain ⟨hpres, suf, htr, hsuf⟩ := envRunTail_ok _ _ _ _ _ _ h
    refine ⟨hpres, [Event.cgroupSetup, Event.cgroupAttachSelf] ++ suf, ?_, ?_⟩
    · rw [htr]; simp
    · intro e he
      rcases List.mem_append.mp he with hpre | hin
      · fin_cases hpre <;> exact ⟨rfl, by simp⟩
      · exact hsuf e hin
  | some nsPath =>
    simp only [hns] at h
    by_cases hfree : lookupFd t o.netnsFd = none
    · rw [if_pos hfree] at h
      cases h2 : o.netnsErr with
      | some e => rw [h2] at h; exact Outcome.noConfusion h
      | none =>
      simp only [h2] at h
      obtain ⟨hpres, suf, htr, hsuf⟩ := envRunTail_ok _ _ _ _ _ _ h
      constructor
      · intro n hn
        rw [hpres n hn, lookupFd_closeFd]
        by_cases hdv : n = o.netnsFd
        · rw [if_pos hdv, hdv, hfree]
        · rw [if_neg hdv, lookupFd_cons, if_neg (fun hh => hdv hh.symm)]
      · refine ⟨[Event.cgroupSetup, Event.cgroupAttachSelf,
          Event.openNetNs nsPath, Event.setNetNs, Event.closeNetNs] ++ suf,
          ?_, ?_⟩
        · rw [htr]; simp
        · intro e he
          rcases List.mem_append.mp he with hpre | hin
          · fin_cases hpre <;> exact ⟨rfl, by simp⟩
          · exact hsuf e hin
    · rw [if_neg hfree] at h; exact Outcome.noConfusion h

theorem open_dev_kvm_ok_inv (r e v : Int)
    (h : open_dev_kvm r e = Except.ok v) : r = 3 ∧ v = 3 := by
  unfold open_dev_kvm at h
  by_cases h1 : r < 0
  · rw [if_pos h1] at h; exact Except.noConfusion h
  · rw [if_neg h1] at h
    by_cases h2 : r ≠ KVM_FD
    · rw [if_pos h2] at h; exact Except.noConfusion h
    · rw [if_neg h2] at h
      have hr : r = 3 := by simpa [KVM_FD] using not_not.mp h2
      injection h with hv
      exact ⟨hr, by omega⟩

theorem runSocketPath_envChrootDir (b : FsPath) (e i : String) :
    runSocketPath (envChrootDir b e i) =
      some (b ++ [e, i, SOCKET_FILE_NAME]) := by
  have h1 : envChrootDir b e i = (b ++ [e, i]) ++ ["root"] := by
    simp [envChrootDir]
  have h2 : parentPath (envChrootDir b e i) = some (b ++ [e, i]) := by
    rw [h1, parentPath, if_neg (by simp), List.dropLast_concat]
  rw [runSocketPath, h2]
  simp [joinPath]

theorem run_ok_inv (cfg : Config) (o : Oracle) (t0 : FdTable)
    (tbl : FdTable) (tr : List Event)
    (h : run cfg o t0 = Outcome.ok tbl tr) :
    lookupFd tbl 3 = some kvmEntry ∧
    lookupFd tbl 4 = some (FdEntry.mk (FdObject.listener
      (cfg.chrootBase ++ [cfg.execFileName, cfg.id, SOCKET_FILE_NAME]))
      false) ∧
    ((∀ p ∈ t0, (p.1 : Int) < o.openMax) →
      ∀ n, 5 ≤ n → lookupFd tbl n = none) ∧
    ∃ suf,
      tr = [Event.closeInheritedFds 3 o.openMax, Event.openKvm,
        Event.createDirAll
          (envChrootDir cfg.chrootBase cfg.execFileName cfg.id),
        Event.bindSocket
          (cfg.chrootBase ++ [cfg.execFileName, cfg.id, SOCKET_FILE_NAME]),
        Event.fcntlGetFd 4, Event.fcntlSetFd 4] ++ suf ∧
      ∀ e ∈ suf, isBindEvent e = false ∧ e ≠ Event.openKvm := by
  unfold run at h
  cases hk : open_dev_kvm o.kvmRet o.kvmErrno with
  | error e => rw [hk] at h; exact Outcome.noConfusion h
  | ok ret =>
  simp only [hk] at h
  obtain ⟨hr, hv⟩ := open_dev_kvm_ok_inv _ _ _ hk
  subst hv
  simp only [show ((3 : Int)).toNat = 3 from rfl] at h
  by_cases hf3 : lookupFd (sanitize_process o.openMax t0) 3 = none
  case neg => rw [if_neg hf3] at h; exact Outcome.noConfusion h
  case pos =>
  rw [if_pos hf3] at h
  cases he : o.envNewErr with
  | some e => simp only [he] at h; exact Outcome.noConfusion h
  | none =>
  simp only [he] at h
  cases hcd : o.createDirErr with
  | some ioe => simp only [hcd] at h; exact Outcome.noConfusion h
  | none =>
  simp only [hcd] at h
  simp only [runSocketPath_envChrootDir] at h
  cases hb : o.bindResult with
  | error ioe => simp only [hb] at h; exact Outcome.noConfusion h
  | ok lfd =>
  simp only [hb] at h
  by_cases hf4 : lookupFd ((3, kvmEntry) :: sanitize_process o.openMax t0)
      lfd = none
  case neg => rw [if_neg hf4] at h; exact Outcome.noConfusion h
  case pos =>
  rw [if_pos hf4] at h
  by_cases hl : (lfd : Int) ≠ LISTENER_FD
  case pos => rw [if_pos hl] at h; exact Outcome.noConfusion h
  case neg =>
  rw [if_neg hl] at h
  have hlfd : lfd = 4 := by
    simp [LISTENER_FD] at hl
    omega
  subst hlfd
  by_cases hg : o.fcntlGetFail = true
  case pos => rw [if_pos hg] at h; exact Outcome.noConfusion h
  case neg =>
  rw [if_neg hg] at h
  by_cases hs : o.fcntlSetFail = true
  case pos => rw [if_pos hs] at h; exact Outcome.noConfusion h
  case neg =>
  rw [if_neg hs] at h
  obtain ⟨hpres, suf, htr, hsuf⟩ := envRun_ok _ _ _ _ _ _ h
  refine ⟨?_, ?_, ?_, suf, htr, hsuf⟩
  · rw [hpres 3 (by omega), lookupFd_setFdCloexec,
      if_neg (by omega : ¬ (4 : Nat) = 3), lookupFd_cons,
      if_neg (by omega : ¬ (4 : Nat) = 3), lookupFd_cons, if_pos rfl]
  · rw [hpres 4 (by omega), lookupFd_setFdCloexec, if_pos rfl,
      lookupFd_cons, if_pos rfl]
    rfl
  · intro hkeys n hn
    rw [hpres n (by omega), lookupFd_setFdCloexec,
      if_neg (by omega : ¬ (4 : Nat) = n), lookupFd_cons,
      if_neg (by omega : ¬ (4 : Nat) = n), lookupFd_cons,
      if_neg (by omega : ¬ (3 : Nat) = n), lookupFd_sanitize]
    by_cases hrange : 3 ≤ (n : Int) ∧ (n : Int) < o.openMax
    · rw [if_pos hrange]
    · rw [if_neg hrange]
      exact lookupFd_none_of_keys_lt t0 o.openMax n hkeys (by omega)

/-! ## Absence of panics -/

theorem execStep_no_panic (o : Oracle) (t : FdTable) (tr : List Event) :
    execStep o t tr ≠ Outcome.panicked := by
  unfold execStep
  cases o.execErr <;> simp

theorem envRunTail_no_panic (cfg : Config) (o : Oracle) (t : FdTable)
    (tr : List Event) : envRunTail cfg o t tr ≠ Outcome.panicked := by
  unfold envRunTail
  repeat' split
  all_goals first
    | exact execStep_no_panic _ _ _
    | simp

theorem envRun_no_panic (cfg : Config) (o : Oracle) (t : FdTable)
    (tr : List Event) : envRun cfg o t tr ≠ Outcome.panicked := by
  unfold envRun
  repeat' split
  all_goals first
    | exact envRunTail_no_panic _ _ _ _
    | simp

/-! ## Claim theorems -/

/-- C3: `open_dev_kvm` returns `Err(OpenDevKvm)` when the raw open of
`/dev/kvm` fails (negative return), `Err(UnexpectedKvmFd ret)` when
the open succeeds but the descriptor is not 3, and `Ok 3` otherwise;
every `Ok` value equals 3. -/
theorem claim_C3 (ret errno : Int) :
    (ret < 0 →
      open_dev_kvm ret errno = Except.error (Error.OpenDevKvm errno)) ∧
    (0 ≤ ret → ret ≠ 3 →
      open_dev_kvm ret errno = Except.error (Error.UnexpectedKvmFd ret)) ∧
    (ret = 3 → open_dev_kvm ret errno = Except.ok 3) ∧
    (∀ v, open_dev_kvm ret errno = Except.ok v → v = 3) := by
  refine ⟨?_, ?_, ?_, ?_⟩
  · intro h; rw [open_dev_kvm, if_pos h]
  · intro h1 h2
    rw [open_dev_kvm, if_neg (by omega),
      if_pos (show ret ≠ KVM_FD by simp [KVM_FD]; omega)]
  · intro h
    subst h
    rfl
  · intro v hv
    exact (open_dev_kvm_ok_inv _ _ _ hv).2

theorem claim_C3_witness :
    open_dev_kvm (-1) 7 = Except.error (Error.OpenDevKvm 7) ∧
    open_dev_kvm 5 7 = Except.error (Error.UnexpectedKvmFd 5) ∧
    open_dev_kvm 3 7 = Except.ok 3 :=
  ⟨(claim_C3 (-1) 7).1 (by decide),
   (claim_C3 5 7).2.1 (by decide) (by decide),
   (claim_C3 3 7).2.2.1 rfl⟩

/-- C6: `sanitize_process` closes every descriptor `n` with
`3 ≤ n < sysconf(_SC_OPEN_MAX)` and leaves every other descriptor
(in particular 0, 1 and 2) untouched; it is a total function (it
always returns and cannot fail). -/
theorem claim_C6 (openMax : Int) (t : FdTable) (n : Nat) :
    (3 ≤ (n : Int) ∧ (n : Int) < openMax →
      lookupFd (sanitize_process openMax t) n = none) ∧
    (¬(3 ≤ (n : Int) ∧ (n : Int) < openMax) →
      lookupFd (sanitize_process openMax t) n = lookupFd t n) := by
  constructor
  · intro h; rw [lookupFd_sanitize, if_pos h]
  · intro h; rw [lookupFd_sanitize, if_neg h]

theorem claim_C6_witness :
    lookupFd (sanitize_process 16 stdioTable) 3 = none ∧
    lookupFd (sanitize_process 16 stdioTable) 0 = lookupFd stdioTable 0 :=
  ⟨(claim_C6 16 stdioTable 3).1 (by decide),
   (claim_C6 16 stdioTable 0).2 (by decide)⟩

/-- C7: the path `run` binds the API listener to is the parent
directory of `chroot_dir` joined with `api.socket`; when `chroot_dir`
is `base/exec/id/root` this is `base/exec/id/api.socket`. -/
theorem claim_C7 (chrootDir base : FsPath) (execName idStr : String)
    (hform : chrootDir = base ++ [execName, idStr, "root"]) :
    runSocketPath chrootDir =
      (parentPath chrootDir).map
        (fun par => joinPath par SOCKET_FILE_NAME) ∧
    runSocketPath chrootDir =
      some (base ++ [execName, idStr, SOCKET_FILE_NAME]) := by
  constructor
  · rfl
  · subst hform
    exact runSocketPath_envChrootDir base execName idStr

theorem claim_C7_witness :
    runSocketPath ["tmp", "j", "true", "alice", "root"] =
      (parentPath ["tmp", "j", "true", "alice", "root"]).map
        (fun par => joinPath par SOCKET_FILE_NAME) ∧
    runSocketPath ["tmp", "j", "true", "alice", "root"] =
      some ["tmp", "j", "true", "alice", "api.socket"] :=
  claim_C7 ["tmp", "j", "true", "alice", "root"] ["tmp", "j"] "true" "alice"
    (by decide)

/-- C8: `to_cstring` returns `Err(OsStringParsing ..)` exactly for
byte sequences that are not valid UTF-8, `Err(CStringParsing ..)` for
valid text containing a nul byte, and `Ok` with the unchanged bytes
otherwise; being a total function it never panics. -/
theorem claim_C8 (path : FsPath) (bytes : List Nat) :
    (utf8Valid bytes = false →
      to_cstring path bytes =
        Except.error (Error.OsStringParsing path bytes)) ∧
    (utf8Valid bytes = true → bytes.contains 0 = true →
      to_cstring path bytes =
        Except.error (Error.CStringParsing (bytes.indexOf 0))) ∧
    (utf8Valid bytes = true → bytes.contains 0 = false →
      to_cstring path bytes = Except.ok bytes) := by
  refine ⟨?_, ?_, ?_⟩
  · intro h
    simp [to_cstring, intoString, h]
  · intro h1 h2
    have h2m : 0 ∈ bytes := by simpa using h2
    simp [to_cstring, intoString, cstringNew, h1, h2m]
  · intro h1 h2
    have h2m : 0 ∉ bytes := by simpa using h2
    simp [to_cstring, intoString, cstringNew, h1, h2m]

theorem claim_C8_witness :
    to_cstring ["x"] [0xFF] =
      Except.error (Error.OsStringParsing ["x"] [0xFF]) ∧
    to_cstring ["x"] [104, 0, 105] =
      Except.error (Error.CStringParsing 1) ∧
    to_cstring ["x"] [104, 105] = Except.ok [104, 105] :=
  ⟨(claim_C8 ["x"] [0xFF]).1 (by decide),
   (claim_C8 ["x"] [104, 0, 105]).2.1 (by decide) (by decide),
   (claim_C8 ["x"] [104, 105]).2.2 (by decide) (by decide)⟩

/-- C10: when the environment's `chroot_dir` has the form
`base/exec_name/id/root` (so it has a parent), the
`parent().unwrap()` in `run` cannot fire: no execution of `run`
panics. -/
theorem claim_C10 (cfg : Config) (o : Oracle) (t0 : FdTable) (base : FsPath)
    (hform : envChrootDir cfg.chrootBase cfg.execFileName cfg.id =
      base ++ [cfg.execFileName, cfg.id, "root"]) :
    run cfg o t0 ≠ Outcome.panicked := by
  intro hcon
  unfold run at hcon
  repeat' split at hcon
  all_goals
    first
      | exact Outcome.noConfusion hcon
      | exact envRun_no_panic _ _ _ _ hcon
      | (rename_i hsock
         rw [runSocketPath_envChrootDir] at hsock
         exact Option.noConfusion hsock)

theorem claim_C10_witness :
    run happyConfig happyOracle stdioTable ≠ Outcome.panicked :=
  claim_C10 happyConfig happyOracle stdioTable ["srv", "jailer"] (by decide)

/-- C2: after any run that reaches the point just before exec without
error, descriptor 3 is `/dev/kvm` opened read-write, descriptor 4 the
bound stream listener at the derived socket path, neither has
`FD_CLOEXEC` set, and no descriptor numbered 5 or higher is open.  The
initial table is constrained by the kernel invariant that every open
descriptor is below `sysconf(_SC_OPEN_MAX)`. -/
theorem claim_C2 (cfg : Config) (o : Oracle) (t0 : FdTable)
    (tbl : FdTable) (tr : List Event)
    (hkeys : ∀ p ∈ t0, (p.1 : Int) < o.openMax)
    (h : run cfg o t0 = Outcome.ok tbl tr) :
    lookupFd tbl 3 =
      some (FdEntry.mk (FdObject.file devKvmPath O_RDWR) false) ∧
    lookupFd tbl 4 = some (FdEntry.mk (FdObject.listener
      (cfg.chrootBase ++ [cfg.execFileName, cfg.id, SOCKET_FILE_NAME]))
      false) ∧
    (∀ n, 5 ≤ n → lookupFd tbl n = none) := by
  obtain ⟨h3, h4, h5, -⟩ := run_ok_inv _ _ _ _ _ h
  exact ⟨h3, h4, h5 hkeys⟩

theorem claim_C2_witness :
    lookupFd happyFinalTable 3 =
      some (FdEntry.mk (FdObject.file devKvmPath O_RDWR) false) ∧
    lookupFd happyFinalTable 4 = some (FdEntry.mk (FdObject.listener
      ["srv", "jailer", "firecracker", "vm1", "api.socket"]) false) ∧
    (∀ n, 5 ≤ n → lookupFd happyFinalTable n = none) :=
  claim_C2 happyConfig happyOracle stdioTable happyFinalTable happyTrace
    (by decide) (by decide)

/-- C4: in `run`, when the freshly bound listener's raw descriptor is
not 4, `run` aborts with `UnexpectedListenerFd` carrying the actual
descriptor, having performed nothing beyond the bind; when it is 4,
execution continues into the remaining environment steps. -/
theorem claim_C4 (cfg : Config) (o : Oracle) (t0 : FdTable) (lfd : Nat)
    (h1 : o.kvmRet = 3)
    (h2 : lookupFd (sanitize_process o.openMax t0) 3 = none)
    (h3 : o.envNewErr = none)
    (h4 : o.createDirErr = none)
    (h5 : o.bindResult = Except.ok lfd)
    (h6 : lookupFd ((3, kvmEntry) :: sanitize_process o.openMax t0)
      lfd = none) :
    ((lfd : Int) ≠ 4 →
      run cfg o t0 = Outcome.err (Error.UnexpectedListenerFd lfd)
        [Event.closeInheritedFds 3 o.openMax, Event.openKvm,
         Event.createDirAll
           (envChrootDir cfg.chrootBase cfg.execFileName cfg.id),
         Event.bindSocket
           (cfg.chrootBase ++ [cfg.execFileName, cfg.id,
             SOCKET_FILE_NAME])]) ∧
    ((lfd : Int) = 4 → o.fcntlGetFail = false → o.fcntlSetFail = false →
      run cfg o t0 = envRun cfg o
        (setFdCloexec
          ((lfd, FdEntry.mk (FdObject.listener
              (cfg.chrootBase ++ [cfg.execFileName, cfg.id,
                SOCKET_FILE_NAME])) true) ::
            (3, kvmEntry) :: sanitize_process o.openMax t0)
          lfd false)
        [Event.closeInheritedFds 3 o.openMax, Event.openKvm,
         Event.createDirAll
           (envChrootDir cfg.chrootBase cfg.execFileName cfg.id),
         Event.bindSocket
           (cfg.chrootBase ++ [cfg.execFileName, cfg.id, SOCKET_FILE_NAME]),
         Event.fcntlGetFd lfd, Event.fcntlSetFd lfd]) := by
  have hopen : open_dev_kvm o.kvmRet o.kvmErrno = Except.ok 3 := by
    rw [h1]; rfl
  constructor
  · intro hne
    unfold run
    simp only [hopen]
    simp only [show ((3 : Int)).toNat = 3 from rfl]
    rw [if_pos h2]
    simp only [h3, h4, runSocketPath_envChrootDir, h5]
    rw [if_pos h6, if_pos (show (lfd : Int) ≠ LISTENER_FD by
      simpa [LISTENER_FD] using hne)]
  · intro heq hg hs
    unfold run
    simp only [hopen]
    simp only [show ((3 : Int)).toNat = 3 from rfl]
    rw [if_pos h2]
    simp only [h3, h4, runSocketPath_envChrootDir, h5]
    rw [if_pos h6,
      if_neg (show ¬ (lfd : Int) ≠ LISTENER_FD by
        simp only [LISTENER_FD, ne_eq, not_not]; exact heq),
      if_neg (show ¬ o.fcntlGetFail = true by simp [hg]),
      if_neg (show ¬ o.fcntlSetFail = true by simp [hs])]

theorem get_append_right_mem {α : Type} (l1 l2 : List α) (m : Nat)
    (hm : m < (l1 ++ l2).length) (h6 : l1.length ≤ m) :
    (l1 ++ l2).get ⟨m, hm⟩ ∈ l2 := by
  rw [List.get_eq_getElem, List.getElem_append_right h6]
  exact List.getElem_mem _

/-- Order facts for a trace of the shape laid down by `run`: a
six-event prefix followed by the `Env::run` suffix.  When the bind can
only sit at index 3, `openKvm` only at index 1, and no chroot
filesystem operation sits in the prefix, every bind precedes every
chroot operation, and only index 2 separates the KVM open from the
bind. -/
theorem trace_shape_order (A B C D E F : Event) (suf : List Event)
    (hbind : isBindEvent A = false ∧ isBindEvent B = false ∧
      isBindEvent C = false ∧ isBindEvent E = false ∧ isBindEvent F = false)
    (hchroot : isChrootFsOp A = false ∧ isChrootFsOp B = false ∧
      isChrootFsOp C = false ∧ isChrootFsOp D = false ∧
      isChrootFsOp E = false ∧ isChrootFsOp F = false)
    (hkvm : A ≠ Event.openKvm ∧ C ≠ Event.openKvm ∧ D ≠ Event.openKvm ∧
      E ≠ Event.openKvm ∧ F ≠ Event.openKvm)
    (hC : isOpenEvent C = false)
    (hsuf : ∀ e ∈ suf, isBindEvent e = false ∧ e ≠ Event.openKvm) :
    (∀ (i j : Nat) (hi : i < ([A, B, C, D, E, F] ++ suf).length)
        (hj : j < ([A, B, C, D, E, F] ++ suf).length),
      isBindEvent (([A, B, C, D, E, F] ++ suf).get ⟨i, hi⟩) = true →
      isChrootFsOp (([A, B, C, D, E, F] ++ suf).get ⟨j, hj⟩) = true →
      i < j) ∧
    (∀ (i j k : Nat) (hi : i < ([A, B, C, D, E, F] ++ suf).length)
        (hj : j < ([A, B, C, D, E, F] ++ suf).length)
        (hk : k < ([A, B, C, D, E, F] ++ suf).length), i < j → j < k →
      ([A, B, C, D, E, F] ++ suf).get ⟨i, hi⟩ = Event.openKvm →
      isBindEvent (([A, B, C, D, E, F] ++ suf).get ⟨k, hk⟩) = true →
      isOpenEvent (([A, B, C, D, E, F] ++ suf).get ⟨j, hj⟩) = false) := by
  obtain ⟨hbA, hbB, hbC, hbE, hbF⟩ := hbind
  obtain ⟨hcA, hcB, hcC, hcD, hcE, hcF⟩ := hchroot
  obtain ⟨hkA, hkC, hkD, hkE, hkF⟩ := hkvm
  have hbidx : ∀ (m : Nat) (hm : m < ([A, B, C, D, E, F] ++ suf).length),
      isBindEvent (([A, B, C, D, E, F] ++ suf).get ⟨m, hm⟩) = true →
      m = 3 := by
    intro m hm hb
    by_cases h6 : m < 6
    · interval_cases m
      · rw [show ([A, B, C, D, E, F] ++ suf).get ⟨0, hm⟩ = A from rfl,
          hbA] at hb
        exact Bool.noConfusion hb
      · rw [show ([A, B, C, D, E, F] ++ suf).get ⟨1, hm⟩ = B from rfl,
          hbB] at hb
        exact Bool.noConfusion hb
      · rw [show ([A, B, C, D, E, F] ++ suf).get ⟨2, hm⟩ = C from rfl,
          hbC] at hb
        exact Bool.noConfusion hb
      · rfl
      · rw [show ([A, B, C, D, E, F] ++ suf).get ⟨4, hm⟩ = E from rfl,
          hbE] at hb
        exact Bool.noConfusion hb
      · rw [show ([A, B, C, D, E, F] ++ suf).get ⟨5, hm⟩ = F from rfl,
          hbF] at hb
        exact Bool.noConfusion hb
    · exfalso
      have hmem := get_append_right_mem [A, B, C, D, E, F] suf m hm
        (by simpa using (by omega : 6 ≤ m))
      rw [(hsuf _ hmem).1] at hb
      exact Bool.noConfusion hb
  have hkidx : ∀ (m : Nat) (hm : m < ([A, B, C, D, E, F] ++ suf).length),
      ([A, B, C, D, E, F] ++ suf).get ⟨m, hm⟩ = Event.openKvm →
      m = 1 := by
    intro m hm hk
    by_cases h6 : m < 6
    · interval_cases m
      · exact absurd
          ((show ([A, B, C, D, E, F] ++ suf).get ⟨0, hm⟩ = A
            from rfl) ▸ hk) hkA
      · rfl
      · exact absurd
          ((show ([A, B, C, D, E, F] ++ suf).get ⟨2, hm⟩ = C
            from rfl) ▸ hk) hkC
      · exact absurd
          ((show ([A, B, C, D, E, F] ++ suf).get ⟨3, hm⟩ = D
            from rfl) ▸ hk) hkD
      · exact absurd
          ((show ([A, B, C, D, E, F] ++ suf).get ⟨4, hm⟩ = E
            from rfl) ▸ hk) hkE
      · exact absurd
          ((show ([A, B, C, D, E, F] ++ suf).get ⟨5, hm⟩ = F
            from rfl) ▸ hk) hkF
    · exfalso
      have hmem := get_append_right_mem [A, B, C, D, E, F] suf m hm
        (by simpa using (by omega : 6 ≤ m))
      exact (hsuf _ hmem).2 hk
  have hcidx : ∀ (m : Nat) (hm : m < ([A, B, C, D, E, F] ++ suf).length),
      isChrootFsOp (([A, B, C, D, E, F] ++ suf).get ⟨m, hm⟩) = true →
      6 ≤ m := by
    intro m hm hc
    by_contra h6
    push_neg at h6
    interval_cases m
    · rw [show ([A, B, C, D, E, F] ++ suf).get ⟨0, hm⟩ = A from rfl,
        hcA] at hc
      exact Bool.noConfusion hc
    · rw [show ([A, B, C, D, E, F] ++ suf).get ⟨1, hm⟩ = B from rfl,
        hcB] at hc
      exact Bool.noConfusion hc
    · rw [show ([A, B, C, D, E, F] ++ suf).get ⟨2, hm⟩ = C from rfl,
        hcC] at hc
      exact Bool.noConfusion hc
    · rw [show ([A, B, C, D, E, F] ++ suf).get ⟨3, hm⟩ = D from rfl,
        hcD] at hc
      exact Bool.noConfusion hc
    · rw [show ([A, B, C, D, E, F] ++ suf).get ⟨4, hm⟩ = E from rfl,
        hcE] at hc
      exact Bool.noConfusion hc
    · rw [show ([A, B, C, D, E, F] ++ suf).get ⟨5, hm⟩ = F from rfl,
        hcF] at hc
      exact Bool.noConfusion hc
  constructor
  · intro i j hi hj hb hc
    have h1 := hbidx i hi hb
    have h2 := hcidx j hj hc
    omega
  · intro i j k hi hj hk hij hjk hkvmEq hb
    have h1 := hkidx i hi hkvmEq
    have h2 := hbidx k hk hb
    have hj2 : j = 2 := by omega
    subst hj2
    rw [show ([A, B, C, D, E, F] ++ suf).get ⟨2, hj⟩ = C from rfl]
    exact hC

theorem claim_C4_witness :
    run happyConfig mismatchOracle mismatchTable =
      Outcome.err (Error.UnexpectedListenerFd 5)
        [Event.closeInheritedFds 3 4, Event.openKvm,
         Event.createDirAll ["srv", "jailer", "firecracker", "vm1", "root"],
         Event.bindSocket
           ["srv", "jailer", "firecracker", "vm1", "api.socket"]] :=
  (claim_C4 happyConfig mismatchOracle mismatchTable 5 rfl (by decide)
    rfl rfl rfl (by decide)).1 (by decide)

/-- C1 (counterexample): the claim as stated — that in every
successful execution the socket bind happens after every mount, chdir
and pivot_root of the ChrootBuilder — is false: the kernel-faithful
happy-path run succeeds with the bind at trace index 3 and pivot_root
at index 17. -/
theorem claim_C1_counterexample : ¬ bindAfterChrootClaim := by
  intro hcl
  have h := hcl happyConfig happyOracle stdioTable happyFinalTable happyTrace
    (by decide) 3 17 (by decide) (by decide) (by decide) (by decide)
  omega

/-- C1 (amended): in every successful execution the socket bind
happens before every mount, chdir and pivot_root operation of the
ChrootBuilder (the bind is on the host side of the jail, before
`Env::run`), and no file-opening operation occurs between the KVM
open and the socket bind. -/
theorem claim_C1_amended (cfg : Config) (o : Oracle) (t0 : FdTable)
    (tbl : FdTable) (tr : List Event)
    (h : run cfg o t0 = Outcome.ok tbl tr) :
    (∀ (i j : Nat) (hi : i < tr.length) (hj : j < tr.length),
      isBindEvent (tr.get ⟨i, hi⟩) = true →
      isChrootFsOp (tr.get ⟨j, hj⟩) = true → i < j) ∧
    (∀ (i j k : Nat) (hi : i < tr.length) (hj : j < tr.length)
        (hk : k < tr.length), i < j → j < k →
      tr.get ⟨i, hi⟩ = Event.openKvm →
      isBindEvent (tr.get ⟨k, hk⟩) = true →
      isOpenEvent (tr.get ⟨j, hj⟩) = false) := by
  obtain ⟨-, -, -, suf, htr, hsuf⟩ := run_ok_inv _ _ _ _ _ h
  subst htr
  exact trace_shape_order _ _ _ _ _ _ suf
    ⟨rfl, rfl, rfl, rfl, rfl⟩
    ⟨rfl, rfl, rfl, rfl, rfl, rfl⟩
    ⟨by simp, by simp, by simp, by simp, by simp⟩
    rfl hsuf

theorem claim_C1_witness : (3 : Nat) < 17 :=
  (claim_C1_amended happyConfig happyOracle stdioTable happyFinalTable
    happyTrace (by decide)).1 3 17 (by decide) (by decide) (by decide)
    (by decide)

/-! ## Inversion of the context deserializer -/

theorem deStep_ok_inv (p : PartialContext) (kv : String × JsonValue)
    (q : PartialContext) (h : deStep p kv = Except.ok q) :
    (kv.1 = "id" ∧ p.id = none ∧
      ∃ s, kv.2 = JsonValue.str s ∧ q = { p with id := some s }) ∨
    (kv.1 = "jailed" ∧ p.jailed = none ∧
      ∃ b, kv.2 = JsonValue.jbool b ∧ q = { p with jailed := some b }) ∨
    (kv.1 = "seccomp_level" ∧ p.seccomp_level = none ∧
      ∃ n, kv.2 = JsonValue.num n ∧ n < U32_BOUND ∧
        q = { p with seccomp_level := some n }) ∨
    (kv.1 = "start_time_us" ∧ p.start_time_us = none ∧
      ∃ n, kv.2 = JsonValue.num n ∧ n < U64_BOUND ∧
        q = { p with start_time_us := some n }) ∨
    (kv.1 = "start_time_cpu_us" ∧ p.start_time_cpu_us = none ∧
      ∃ n, kv.2 = JsonValue.num n ∧ n < U64_BOUND ∧
        q = { p with start_time_cpu_us := some n }) := by
  unfold deStep at h
  by_cases e1 : kv.1 = "id"
  · rw [if_pos e1] at h
    cases hp : p.id with
    | some s => simp only [hp] at h; exact Except.noConfusion h
    | none =>
      simp only [hp] at h
      cases hv : kv.2 with
      | str s =>
        simp only [hv] at h
        injection h with h
        exact Or.inl ⟨e1, rfl, s, rfl, h.symm⟩
      | jbool b => simp only [hv] at h; exact Except.noConfusion h
      | num n => simp only [hv] at h; exact Except.noConfusion h
  · rw [if_neg e1] at h
    by_cases e2 : kv.1 = "jailed"
    · rw [if_pos e2] at h
      cases hp : p.jailed with
      | some b => simp only [hp] at h; exact Except.noConfusion h
      | none =>
        simp only [hp] at h
        cases hv : kv.2 with
        | str s => simp only [hv] at h; exact Except.noConfusion h
        | jbool b =>
          simp only [hv] at h
          injection h with h
          exact Or.inr (Or.inl ⟨e2, rfl, b, rfl, h.symm⟩)
        | num n => simp only [hv] at h; exact Except.noConfusion h
    · rw [if_neg e2] at h
      by_cases e3 : kv.1 = "seccomp_level"
      · rw [if_pos e3] at h
        cases hp : p.seccomp_level with
        | some m => simp only [hp] at h; exact Except.noConfusion h
        | none =>
          simp only [hp] at h
          cases hv : kv.2 with
          | str s => simp only [hv] at h; exact Except.noConfusion h
          | jbool b => simp only [hv] at h; exact Except.noConfusion h
          | num n =>
            simp only [hv] at h
            by_cases hb : n < U32_BOUND
            · rw [if_pos hb] at h
              injection h with h
              exact Or.inr (Or.inr (Or.inl ⟨e3, rfl, n, rfl, hb, h.symm⟩))
            · rw [if_neg hb] at h
              exact Except.noConfusion h
      · rw [if_neg e3] at h
        by_cases e4 : kv.1 = "start_time_us"
        · rw [if_pos e4] at h
          cases hp : p.start_time_us with
          | some m => simp only [hp] at h; exact Except.noConfusion h
          | none =>
            simp only [hp] at h
            cases hv : kv.2 with
            | str s => simp only [hv] at h; exact Except.noConfusion h
            | jbool b => simp only [hv] at h; exact Except.noConfusion h
            | num n =>
              simp only [hv] at h
              by_cases hb : n < U64_BOUND
              · rw [if_pos hb] at h
                injection h with h
                exact Or.inr (Or.inr (Or.inr (Or.inl ⟨e4, rfl, n, rfl, hb, h.symm⟩)))
              · rw [if_neg hb] at h
                exact Except.noConfusion h
        · rw [if_neg e4] at h
          by_cases e5 : kv.1 = "start_time_cpu_us"
          · rw [if_pos e5] at h
            cases hp : p.start_time_cpu_us with
            | some m => simp only [hp] at h; exact Except.noConfusion h
            | none =>
              simp only [hp] at h
              cases hv : kv.2 with
              | str s => simp only [hv] at h; exact Except.noConfusion h
              | jbool b => simp only [hv] at h; exact Except.noConfusion h
              | num n =>
                simp only [hv] at h
                by_cases hb : n < U64_BOUND
                · rw [if_pos hb] at h
                  injection h with h
                  exact Or.inr (Or.inr (Or.inr (Or.inr
                    ⟨e5, rfl, n, rfl, hb, h.symm⟩)))
                · rw [if_neg hb] at h
                  exact Except.noConfusion h
          · rw [if_neg e5] at h
            exact Except.noConfusion h

theorem finalizeContext_ok_inv (p : PartialContext) (c : FirecrackerContext)
    (h : finalizeContext p = Except.ok c) :
    p.id = some c.id ∧ p.jailed = some c.jailed ∧
    p.seccomp_level = some c.seccomp_level ∧
    p.start_time_us = some c.start_time_us ∧
    p.start_time_cpu_us = some c.start_time_cpu_us := by
  unfold finalizeContext at h
  cases h1 : p.id with
  | none => simp only [h1] at h; exact Except.noConfusion h
  | some i =>
  simp only [h1] at h
  cases h2 : p.jailed with
  | none => simp only [h2] at h; exact Except.noConfusion h
  | some j =>
  simp only [h2] at h
  cases h3 : p.seccomp_level with
  | none => simp only [h3] at h; exact Except.noConfusion h
  | some sl =>
  simp only [h3] at h
  cases h4 : p.start_time_us with
  | none => simp only [h4] at h; exact Except.noConfusion h
  | some su =>
  simp only [h4] at h
  cases h5 : p.start_time_cpu_us with
  | none => simp only [h5] at h; exact Except.noConfusion h
  | some scu =>
  simp only [h5] at h
  injection h with h
  subst h
  exact ⟨rfl, rfl, rfl, rfl, rfl⟩

theorem fieldCount_cons (kv : String × JsonValue) (r : JsonRecord)
    (name : String) :
    fieldCount (kv :: r) name =
      (if kv.1 = name then 1 else 0) + fieldCount r name := by
  by_cases h : kv.1 = name <;> simp [fieldCount, List.filter_cons, h] <;>
    omega

theorem deFields_ok_inv (r : JsonRecord) :
    ∀ (p q : PartialContext), deFields p r = Except.ok q →
    (∀ kv ∈ r, kv.1 ∈ contextFieldNames) ∧
    (fieldCount r "id" + countOpt p.id = countOpt q.id) ∧
    (fieldCount r "jailed" + countOpt p.jailed = countOpt q.jailed) ∧
    (fieldCount r "seccomp_level" + countOpt p.seccomp_level =
      countOpt q.seccomp_level) ∧
    (fieldCount r "start_time_us" + countOpt p.start_time_us =
      countOpt q.start_time_us) ∧
    (fieldCount r "start_time_cpu_us" + countOpt p.start_time_cpu_us =
      countOpt q.start_time_cpu_us) ∧
    (∀ s, q.id = some s →
      p.id = some s ∨ ("id", JsonValue.str s) ∈ r) ∧
    (∀ b, q.jailed = some b →
      p.jailed = some b ∨ ("jailed", JsonValue.jbool b) ∈ r) ∧
    (∀ n, q.seccomp_level = some n →
      p.seccomp_level = some n ∨ ("seccomp_level", JsonValue.num n) ∈ r) ∧
    (∀ n, q.start_time_us = some n →
      p.start_time_us = some n ∨ ("start_time_us", JsonValue.num n) ∈ r) ∧
    (∀ n, q.start_time_cpu_us = some n →
      p.start_time_cpu_us = some n ∨
        ("start_time_cpu_us", JsonValue.num n) ∈ r) := by
  induction r with
  | nil =>
    intro p q h
    simp only [deFields] at h
    injection h with h
    subst h
    refine ⟨by simp, by simp [fieldCount], by simp [fieldCount],
      by simp [fieldCount], by simp [fieldCount], by simp [fieldCount],
      fun s hs => Or.inl hs, fun b hb => Or.inl hb,
      fun n hn => Or.inl hn, fun n hn => Or.inl hn, fun n hn => Or.inl hn⟩
  | cons kv rest ih =>
    intro p q h
    simp only [deFields] at h
    cases hd : deStep p kv with
    | error e => simp only [hd] at h; exact Except.noConfusion h
    | ok pn =>
    simp only [hd] at h
    obtain ⟨ihnames, ih1, ih2, ih3, ih4, ih5, im1, im2, im3, im4, im5⟩ :=
      ih pn q h
    rcases deStep_ok_inv _ _ _ hd with
      ⟨hn, hpf, s, hval, hq⟩ | ⟨hn, hpf, b, hval, hq⟩ |
      ⟨hn, hpf, n, hval, hbd, hq⟩ | ⟨hn, hpf, n, hval, hbd, hq⟩ |
      ⟨hn, hpf, n, hval, hbd, hq⟩
    -- field "id"
    · subst hq
      refine ⟨?_, ?_, ?_, ?_, ?_, ?_, ?_, ?_, ?_, ?_, ?_⟩
      · intro kvp hkvp
        rcases List.mem_cons.mp hkvp with heq | hr
        · subst heq; rw [hn]; simp [contextFieldNames]
        · exact ihnames kvp hr
      · have hx : countOpt q.id = fieldCount rest "id" + 1 := by
          simpa [countOpt] using ih1.symm
        rw [fieldCount_cons, if_pos hn, hpf, hx]
        simp only [countOpt]
        omega
      · rw [fieldCount_cons, if_neg (by simp [hn])]
        simpa using ih2
      · rw [fieldCount_cons, if_neg (by simp [hn])]
        simpa using ih3
      · rw [fieldCount_cons, if_neg (by simp [hn])]
        simpa using ih4
      · rw [fieldCount_cons, if_neg (by simp [hn])]
        simpa using ih5
      · intro sp hsp
        rcases im1 sp hsp with hc | hm
        · have hss : s = sp := by simpa using hc
          subst hss
          refine Or.inr ?_
          have hkv : kv = ("id", JsonValue.str s) := by
            obtain ⟨k1, k2⟩ := kv
            simp only [] at hn hval
            rw [hn, hval]
          rw [hkv]
          exact List.mem_cons_self _ _
        · exact Or.inr (List.mem_cons_of_mem _ hm)
      · intro bp hbp
        rcases im2 bp hbp with hc | hm
        · exact Or.inl hc
        · exact Or.inr (List.mem_cons_of_mem _ hm)
      · intro np hnp
        rcases im3 np hnp with hc | hm
        · exact Or.inl hc
        · exact Or.inr (List.mem_cons_of_mem _ hm)
      · intro np hnp
        rcases im4 np hnp with hc | hm
        · exact Or.inl hc
        · exact Or.inr (List.mem_cons_of_mem _ hm)
      · intro np hnp
        rcases im5 np hnp with hc | hm
        · exact Or.inl hc
        · exact Or.inr (List.mem_cons_of_mem _ hm)
    -- field "jailed"
    · subst hq
      refine ⟨?_, ?_, ?_, ?_, ?_, ?_, ?_, ?_, ?_, ?_, ?_⟩
      · intro kvp hkvp
        rcases List.mem_cons.mp hkvp with heq | hr
        · subst heq; rw [hn]; simp [contextFieldNames]
        · exact ihnames kvp hr
      · rw [fieldCount_cons, if_neg (by simp [hn])]
        simpa using ih1
      · have hx : countOpt q.jailed = fieldCount rest "jailed" + 1 := by
          simpa [countOpt] using ih2.symm
        rw [fieldCount_cons, if_pos hn, hpf, hx]
        simp only [countOpt]
        omega
      · rw [fieldCount_cons, if_neg (by simp [hn])]
        simpa using ih3
      · rw [fieldCount_cons, if_neg (by simp [hn])]
        simpa using ih4
      · rw [fieldCount_cons, if_neg (by simp [hn])]
        simpa using ih5
      · intro sp hsp
        rcases im1 sp hsp with hc | hm
        · exact Or.inl hc
        · exact Or.inr (List.mem_cons_of_mem _ hm)
      · intro bp hbp
        rcases im2 bp hbp with hc | hm
        · have hss : b = bp := by simpa using hc
          subst hss
          refine Or.inr ?_
          have hkv : kv = ("jailed", JsonValue.jbool b) := by
            obtain ⟨k1, k2⟩ := kv
            simp only [] at hn hval
            rw [hn, hval]
          rw [hkv]
          exact List.mem_cons_self _ _
        · exact Or.inr (List.mem_cons_of_mem _ hm)
      · intro np hnp
        rcases im3 np hnp with hc | hm
        · exact Or.inl hc
        · exact Or.inr (List.mem_cons_of_mem _ hm)
      · intro np hnp
        rcases im4 np hnp with hc | hm
        · exact Or.inl hc
        · exact Or.inr (List.mem_cons_of_mem _ hm)
      · intro np hnp
        rcases im5 np hnp with hc | hm
        · exact Or.inl hc
        · exact Or.inr (List.mem_cons_of_mem _ hm)
    -- field "seccomp_level"
    · subst hq
      refine ⟨?_, ?_, ?_, ?_, ?_, ?_, ?_, ?_, ?_, ?_, ?_⟩
      · intro kvp hkvp
        rcases List.mem_cons.mp hkvp with heq | hr
        · subst heq; rw [hn]; simp [contextFieldNames]
        · exact ihnames kvp hr
      · rw [fieldCount_cons, if_neg (by simp [hn])]
        simpa using ih1
      · rw [fieldCount_cons, if_neg (by simp [hn])]
        simpa using ih2
      · have hx : countOpt q.seccomp_level =
            fieldCount rest "seccomp_level" + 1 := by
          simpa [countOpt] using ih3.symm
        rw [fieldCount_cons, if_pos hn, hpf, hx]
        simp only [countOpt]
        omega
      · rw [fieldCount_cons, if_neg (by simp [hn])]
        simpa using ih4
      · rw [fieldCount_cons, if_neg (by simp [hn])]
        simpa using ih5
      · intro sp hsp
        rcases im1 sp hsp with hc | hm
        · exact Or.inl hc
        · exact Or.inr (List.mem_cons_of_mem _ hm)
      · intro bp hbp
        rcases im2 bp hbp with hc | hm
        · exact Or.inl hc
        · exact Or.inr (List.mem_cons_of_mem _ hm)
      · intro np hnp
        rcases im3 np hnp with hc | hm
        · have hss : n = np := by simpa using hc
          subst hss
          refine Or.inr ?_
          have hkv : kv = ("seccomp_level", JsonValue.num n) := by
            obtain ⟨k1, k2⟩ := kv
            simp only [] at hn hval
            rw [hn, hval]
          rw [hkv]
          exact List.mem_cons_self _ _
        · exact Or.inr (List.mem_cons_of_mem _ hm)
      · intro np hnp
        rcases im4 np hnp with hc | hm
        · exact Or.inl hc
        · exact Or.inr (List.mem_cons_of_mem _ hm)
      · intro np hnp
        rcases im5 np hnp with hc | hm
        · exact Or.inl hc
        · exact Or.inr (List.mem_cons_of_mem _ hm)
    -- field "start_time_us"
    · subst hq
      refine ⟨?_, ?_, ?_, ?_, ?_, ?_, ?_, ?_, ?_, ?_, ?_⟩
      · intro kvp hkvp
        rcases List.mem_cons.mp hkvp with heq | hr
        · subst heq; rw [hn]; simp [contextFieldNames]
        · exact ihnames kvp hr
      · rw [fieldCount_cons, if_neg (by simp [hn])]
        simpa using ih1
      · rw [fieldCount_cons, if_neg (by simp [hn])]
        simpa using ih2
      · rw [fieldCount_cons, if_neg (by simp [hn])]
        simpa using ih3
      · have hx : countOpt q.start_time_us =
            fieldCount rest "start_time_us" + 1 := by
          simpa [countOpt] using ih4.symm
        rw [fieldCount_cons, if_pos hn, hpf, hx]
        simp only [countOpt]
        omega
      · rw [fieldCount_cons, if_neg (by simp [hn])]
        simpa using ih5
      · intro sp hsp
        rcases im1 sp hsp with hc | hm
        · exact Or.inl hc
        · exact Or.inr (List.mem_cons_of_mem _ hm)
      · intro bp hbp
        rcases im2 bp hbp with hc | hm
        · exact Or.inl hc
        · exact Or.inr (List.mem_cons_of_mem _ hm)
      · intro np hnp
        rcases im3 np hnp with hc | hm
        · exact Or.inl hc
        · exact Or.inr (List.mem_cons_of_mem _ hm)
      · intro np hnp
        rcases im4 np hnp with hc | hm
        · have hss : n = np := by simpa using hc
          subst hss
          refine Or.inr ?_
          have hkv : kv = ("start_time_us", JsonValue.num n) := by
            obtain ⟨k1, k2⟩ := kv
            simp only [] at hn hval
            rw [hn, hval]
          rw [hkv]
          exact List.mem_cons_self _ _
        · exact Or.inr (List.mem_cons_of_mem _ hm)
      · intro np hnp
        rcases im5 np hnp with hc | hm
        · exact Or.inl hc
        · exact Or.inr (List.mem_cons_of_mem _ hm)
    -- field "start_time_cpu_us"
    · subst hq
      refine ⟨?_, ?_, ?_, ?_, ?_, ?_, ?_, ?_, ?_, ?_, ?_⟩
      · intro kvp hkvp
        rcases List.mem_cons.mp hkvp with heq | hr
        · subst heq; rw [hn]; simp [contextFieldNames]
        · exact ihnames kvp hr
      · rw [fieldCount_cons, if_neg (by simp [hn])]
        simpa using ih1
      · rw [fieldCount_cons, if_neg (by simp [hn])]
        simpa using ih2
      · rw [fieldCount_cons, if_neg (by simp [hn])]
        simpa using ih3
      · rw [fieldCount_cons, if_neg (by simp [hn])]
        simpa using ih4
      · have hx : countOpt q.start_time_cpu_us =
            fieldCount rest "start_time_cpu_us" + 1 := by
          simpa [countOpt] using ih5.symm
        rw [fieldCount_cons, if_pos hn, hpf, hx]
        simp only [countOpt]
        omega
      · intro sp hsp
        rcases im1 sp hsp with hc | hm
        · exact Or.inl hc
        · exact Or.inr (List.mem_cons_of_mem _ hm)
      · intro bp hbp
        rcases im2 bp hbp with hc | hm
        · exact Or.inl hc
        · exact Or.inr (List.mem_cons_of_mem _ hm)
      · intro np hnp
        rcases im3 np hnp with hc | hm
        · exact Or.inl hc
        · exact Or.inr (List.mem_cons_of_mem _ hm)
      · intro np hnp
        rcases im4 np hnp with hc | hm
        · exact Or.inl hc
        · exact Or.inr (List.mem_cons_of_mem _ hm)
      · intro np hnp
        rcases im5 np hnp with hc | hm
        · have hss : n = np := by simpa using hc
          subst hss
          refine Or.inr ?_
          have hkv : kv = ("start_time_cpu_us", JsonValue.num n) := by
            obtain ⟨k1, k2⟩ := kv
            simp only [] at hn hval
            rw [hn, hval]
          rw [hkv]
          exact List.mem_cons_self _ _
        · exact Or.inr (List.mem_cons_of_mem _ hm)

theorem deserializeContext_ok_inv (r : JsonRecord) (c : FirecrackerContext)
    (h : deserializeContext r = Except.ok c) :
    ∃ p, deFields PartialContext.empty r = Except.ok p ∧
      finalizeContext p = Except.ok c := by
  unfold deserializeContext at h
  cases hd : deFields PartialContext.empty r with
  | error e => simp only [hd] at h; exact Except.noConfusion h
  | ok p =>
    simp only [hd] at h
    exact ⟨p, rfl, h⟩

/-- C5: deserialization of the target context accepts exactly the
records carrying the five fields `id`, `jailed`, `seccomp_level`,
`start_time_us`, `start_time_cpu_us` with values of the declared
types (each exactly once, in any order), and fails on any input
containing a field name outside that set. -/
theorem claim_C5 (r : JsonRecord) :
    ((∃ kv ∈ r, kv.1 ∉ contextFieldNames) →
      ∀ c, deserializeContext r ≠ Except.ok c) ∧
    (∀ c, deserializeContext r = Except.ok c →
      (∀ kv ∈ r, kv.1 ∈ contextFieldNames) ∧
      fieldCount r "id" = 1 ∧ fieldCount r "jailed" = 1 ∧
      fieldCount r "seccomp_level" = 1 ∧
      fieldCount r "start_time_us" = 1 ∧
      fieldCount r "start_time_cpu_us" = 1 ∧
      ("id", JsonValue.str c.id) ∈ r ∧
      ("jailed", JsonValue.jbool c.jailed) ∈ r ∧
      ("seccomp_level", JsonValue.num c.seccomp_level) ∈ r ∧
      ("start_time_us", JsonValue.num c.start_time_us) ∈ r ∧
      ("start_time_cpu_us", JsonValue.num c.start_time_cpu_us) ∈ r) ∧
    (∀ (s : String) (b : Bool) (n1 n2 n3 : Nat),
      n1 < U32_BOUND → n2 < U64_BOUND → n3 < U64_BOUND →
      deserializeContext
        [("id", JsonValue.str s), ("jailed", JsonValue.jbool b),
         ("seccomp_level", JsonValue.num n1),
         ("start_time_us", JsonValue.num n2),
         ("start_time_cpu_us", JsonValue.num n3)] =
        Except.ok ⟨s, b, n1, n2, n3⟩) := by
  refine ⟨?_, ?_, ?_⟩
  · rintro ⟨kv, hkv, hout⟩ c hok
    obtain ⟨p, hdf, -⟩ := deserializeContext_ok_inv r c hok
    exact hout ((deFields_ok_inv r PartialContext.empty p hdf).1 kv hkv)
  · intro c hok
    obtain ⟨p, hdf, hfin⟩ := deserializeContext_ok_inv r c hok
    obtain ⟨hnames, k1, k2, k3, k4, k5, m1, m2, m3, m4, m5⟩ :=
      deFields_ok_inv r PartialContext.empty p hdf
    obtain ⟨f1, f2, f3, f4, f5⟩ := finalizeContext_ok_inv p c hfin
    refine ⟨hnames, ?_, ?_, ?_, ?_, ?_, ?_, ?_, ?_, ?_, ?_⟩
    · have hcnt := k1
      rw [f1] at hcnt
      simpa [countOpt, PartialContext.empty] using hcnt
    · have hcnt := k2
      rw [f2] at hcnt
      simpa [countOpt, PartialContext.empty] using hcnt
    · have hcnt := k3
      rw [f3] at hcnt
      simpa [countOpt, PartialContext.empty] using hcnt
    · have hcnt := k4
      rw [f4] at hcnt
      simpa [countOpt, PartialContext.empty] using hcnt
    · have hcnt := k5
      rw [f5] at hcnt
      simpa [countOpt, PartialContext.empty] using hcnt
    · rcases m1 c.id f1 with hc | hm
      · exact absurd hc (by simp [PartialContext.empty])
      · exact hm
    · rcases m2 c.jailed f2 with hc | hm
      · exact absurd hc (by simp [PartialContext.empty])
      · exact hm
    · rcases m3 c.seccomp_level f3 with hc | hm
      · exact absurd hc (by simp [PartialContext.empty])
      · exact hm
    · rcases m4 c.start_time_us f4 with hc | hm
      · exact absurd hc (by simp [PartialContext.empty])
      · exact hm
    · rcases m5 c.start_time_cpu_us f5 with hc | hm
      · exact absurd hc (by simp [PartialContext.empty])
      · exact hm
  · intro s b n1 n2 n3 hb1 hb2 hb3
    simp [deserializeContext, deFields, deStep, PartialContext.empty,
      finalizeContext, hb1, hb2, hb3]

theorem claim_C5_witness :
    (∀ c, deserializeContext [("bogus", JsonValue.num 1)] ≠
      Except.ok c) ∧
    deserializeContext
      [("id", JsonValue.str "vm1"), ("jailed", JsonValue.jbool true),
       ("seccomp_level", JsonValue.num 2),
       ("start_time_us", JsonValue.num 3),
       ("start_time_cpu_us", JsonValue.num 4)] =
      Except.ok ⟨"vm1", true, 2, 3, 4⟩ :=
  ⟨(claim_C5 [("bogus", JsonValue.num 1)]).1 (by decide),
   (claim_C5 []).2.2 "vm1" true 2 3 4 (by decide) (by decide) (by decide)⟩

/-- C9: serializing a `FirecrackerContext` whose numeric fields are in
range and deserializing the result yields the same value field by
field (round-trip identity). -/
theorem claim_C9 (c : FirecrackerContext)
    (h1 : c.seccomp_level < U32_BOUND)
    (h2 : c.start_time_us < U64_BOUND)
    (h3 : c.start_time_cpu_us < U64_BOUND) :
    deserializeContext (serializeContext c) = Except.ok c := by
  obtain ⟨i, j, sl, su, scu⟩ := c
  simp only [] at h1 h2 h3
  simp [deserializeContext, serializeContext, deFields, deStep,
    PartialContext.empty, finalizeContext, h1, h2, h3]

theorem claim_C9_witness :
    deserializeContext (serializeContext ⟨"vm1", true, 2, 100, 50⟩) =
      Except.ok ⟨"vm1", true, 2, 100, 50⟩ :=
  claim_C9 ⟨"vm1", true, 2, 100, 50⟩ (by decide) (by decide) (by decide)

end Jailer
